import Mathlib

/-!
Verification of the multi-agent orchestration system.

The development shallowly embeds the Python sources:
* `src/agents/base_agent.py` — the `Message` / `AgentResult` data model,
* `src/agents/answer_synthesiser.py` — the answer-synthesis agent,
* `src/agents/sample_custom_agent.py` — the calculator example agent,
* `src/main.py` — the context-merge step of the `/chat` endpoint,
and, where the repository does not ship the orchestrator module
(`agents/orchestrator.py` is imported by `main.py` but absent from the
sources), models the orchestration loop from the specification (spec §4.3).

Python dynamic values are embedded as the inductive `PyVal`; Python
dictionaries are association lists; a raised Python exception is an
`Except.error` carrying a description of the exception.
-/

/-- Embedding of a dynamically typed Python value, covering the value shapes
the agents manipulate: `None`, booleans, integers, strings, lists and
string-keyed dictionaries. -/
inductive PyVal where
  | none : PyVal
  | bool : Bool → PyVal
  | int : Int → PyVal
  | str : String → PyVal
  | list : List PyVal → PyVal
  | dict : List (String × PyVal) → PyVal

instance : Inhabited PyVal := ⟨PyVal.none⟩

/-- Python truthiness (`bool(v)`): `None` and `False` are falsy, numbers are
truthy when nonzero, containers and strings when nonempty. -/
def pyTruthy : PyVal → Bool
  | PyVal.none => false
  | PyVal.bool b => b
  | PyVal.int n => n ≠ 0
  | PyVal.str s => s ≠ ""
  | PyVal.list l => !l.isEmpty
  | PyVal.dict d => !d.isEmpty

/-- Python `str(v)` for the scalar values the agents interpolate into
prompts.  The rendering of containers is abstracted to a placeholder: no
claim of this development depends on the text of an interpolated container. -/
def pyStrOf : PyVal → String
  | PyVal.none => "None"
  | PyVal.bool b => if b then "True" else "False"
  | PyVal.int n => toString n
  | PyVal.str s => s
  | PyVal.list _ => "<list>"
  | PyVal.dict _ => "<dict>"

/-- Python `str.lower` restricted to the Latin-1 range: ASCII capitals and
the accented capitals U+00C0–U+00DE (except the multiplication sign U+00D7)
map 32 code points up; everything else is fixed. -/
def pyLowerChar (c : Char) : Char :=
  if ('A' ≤ c && c ≤ 'Z') ||
     (0xC0 ≤ c.toNat && c.toNat ≤ 0xDE && c.toNat ≠ 0xD7) then
    Char.ofNat (c.toNat + 32)
  else c

/-- Python `s.lower()` (Latin-1 fragment), acting characterwise. -/
def pyLowerStr (s : String) : String :=
  String.mk (s.data.map pyLowerChar)

/-- The characters Python `str.split()` treats as whitespace, restricted to
the Latin-1 range: ASCII space, `\t`–`\r`, the file/group/record/unit
separators U+001C–U+001F, next-line U+0085 and no-break space U+00A0. -/
def pyIsSpaceChar (c : Char) : Bool :=
  c = ' ' || (0x09 ≤ c.toNat && c.toNat ≤ 0x0D) ||
  (0x1C ≤ c.toNat && c.toNat ≤ 0x1F) || c.toNat = 0x85 || c.toNat = 0xA0

/-- Helper for `pySplit`: splits a character list at whitespace, dropping
empty chunks, with `acc` holding the current chunk reversed. -/
def pySplitChars : List Char → List Char → List (List Char)
  | [], acc => if acc.isEmpty then [] else [acc.reverse]
  | c :: rest, acc =>
    if pyIsSpaceChar c then
      if acc.isEmpty then pySplitChars rest []
      else acc.reverse :: pySplitChars rest []
    else pySplitChars rest (c :: acc)

/-- Python `s.split()` with no separator argument: split on runs of
whitespace and drop empty tokens. -/
def pySplit (s : String) : List String :=
  (pySplitChars s.data []).map String.mk

/-- Characters for which Python `str.isdigit` holds, in the Latin-1 range:
the ASCII digits and the superscript digits `¹`, `²`, `³` (U+00B9, U+00B2,
U+00B3), which are `isdigit`-true but are not accepted by `int()`. -/
def pyIsdigitChar (c : Char) : Bool :=
  ('0' ≤ c && c ≤ '9') || c = '¹' || c = '²' || c = '³'

/-- Python `s.isdigit()` (Latin-1 fragment): nonempty and all characters
digit characters. -/
def pyIsdigit (s : String) : Bool :=
  !s.data.isEmpty && s.data.all pyIsdigitChar

/-- Python `int(s)` on a whitespace-free token (Latin-1 fragment): succeeds
exactly on nonempty all-ASCII-digit strings, returning their decimal value;
any other input (for example the superscript `²`) raises `ValueError`,
modelled as `Option.none`. -/
def pyIntOfToken (s : String) : Option Nat :=
  if !s.data.isEmpty && s.data.all (fun c => '0' ≤ c && c ≤ '9') then
    some (s.data.foldl (fun n c => n * 10 + (c.toNat - 48)) 0)
  else Option.none

/-- Whether `pat` occurs as a leading segment of `l`. -/
def segEq : List Char → List Char → Bool
  | [], _ => true
  | _ :: _, [] => false
  | a :: as, b :: bs => a = b && segEq as bs

/-- Whether `pat` occurs as a contiguous segment anywhere in `l`. -/
def hasSeg (pat : List Char) : List Char → Bool
  | [] => segEq pat []
  | c :: rest => segEq pat (c :: rest) || hasSeg pat rest

/-- Python substring membership `pat in s`. -/
def strContainsSub (s pat : String) : Bool :=
  hasSeg pat.data s.data

/-- A Python dictionary with string keys, as used for contexts, metadata and
agent payload dictionaries.  `List.lookup` returns the first binding. -/
abbrev Ctx := List (String × PyVal)

/-- The uploaded-files mapping (filename to stored path). -/
abbrev Files := List (String × String)

/-- Lookup in a context, modelling Python `d.get(k)`. -/
def ctxFind (c : Ctx) (k : String) : Option PyVal :=
  List.lookup k c

/-- Insertion into a context, modelling Python `d[k] = v`: the new binding
shadows any earlier one. -/
def ctxInsert (k : String) (v : PyVal) (c : Ctx) : Ctx :=
  (k, v) :: c

/-- The context key under which an agent's payload is merged: Python
`f"{agent_name.lower()}_data"` (src/main.py line 108, spec §3 Context). -/
def ctxKey (name : String) : String :=
  pyLowerStr name ++ "_data"

/-- Lookup in a `PyVal` dictionary (`Option.none` when the value is not a
dictionary or lacks the key). -/
def dictFind (v : PyVal) (k : String) : Option PyVal :=
  match v with
  | PyVal.dict d => List.lookup k d
  | _ => Option.none

/-- The `Message` dataclass of `src/agents/base_agent.py` (lines 11–24).
The `metadata` and `timestamp` fields are `Option`-valued because the Python
dataclass declares them with default `None`; `mkMessage` plays the role of
the generated `__init__` plus `__post_init__`.  Time is abstracted to `Nat`. -/
structure Message where
  role : String
  content : String
  metadata : Option Ctx
  timestamp : Option Nat

/-- Construction of a `Message` through the dataclass `__init__` and
`__post_init__` (base_agent.py lines 20–24): a `None` timestamp becomes the
creation time `now`, a `None` metadata becomes the empty dictionary. -/
def mkMessage (role content : String) (metadata : Option Ctx)
    (timestamp : Option Nat) (now : Nat) : Message :=
  { role := role, content := content,
    metadata := some (metadata.getD []),
    timestamp := some (timestamp.getD now) }

/-- The `AgentResult` dataclass of `src/agents/base_agent.py` (lines 27–40). -/
structure AgentResult where
  success : Bool
  data : PyVal
  message : String
  agent_name : String
  next_agent : Option String
  metadata : Option Ctx

instance : Inhabited AgentResult :=
  ⟨⟨false, PyVal.none, "", "", Option.none, Option.none⟩⟩

/-- Construction of an `AgentResult` through the dataclass `__init__` and
`__post_init__` (base_agent.py lines 38–40): a `None` metadata becomes the
empty dictionary. -/
def mkAgentResult (success : Bool) (data : PyVal) (message agent_name : String)
    (next_agent : Option String) (metadata : Option Ctx) : AgentResult :=
  { success := success, data := data, message := message,
    agent_name := agent_name, next_agent := next_agent,
    metadata := some (metadata.getD []) }

/-- A deterministic agent implementation: the `process` method of a concrete
agent, as a pure function of the query, the shared context and the uploaded
files (spec §4.1; the generation backend of a concrete agent is a stub
folded into the function, which also models the "deterministic stub backend"
of spec §8). -/
abbrev AgentFn := String → Ctx → Files → AgentResult

/-- Modelled from the spec: the Agent Registry (spec §4.2), absent from the
shipped sources together with `agents/orchestrator.py`.  A named collection
of agents; `List.lookup` is the `get(name)` query, returning `Option.none`
for `AgentNotFound`. -/
abbrev Registry := List (String × AgentFn)

/-- Modelled from the spec: the orchestrator-level structural errors of spec
§7, plus a `fuelExhausted` marker that is an artifact of the fuelled loop
encoding and is proved unreachable. -/
inductive OrchError where
  | unknownAgent : OrchError
  | routingCycle : OrchError
  | fuelExhausted : OrchError
deriving DecidableEq

/-- Modelled from the spec: the `ChainResult` record of spec §3, extended
with the final context (the spec's step 2e mutates the caller's context in
place; the embedding threads it explicitly) and the structural-error field
of spec §7. -/
structure ChainResult where
  success : Bool
  agent_results : List (String × AgentResult)
  final_answer : String
  chain : List String
  context : Ctx
  error : Option OrchError

/-- The orchestrator loop state: visited chain, recorded results in
visitation order, and the accumulated context. -/
structure OrchState where
  chain : List String
  results : List (String × AgentResult)
  ctx : Ctx

/-- The success of the most recent recorded result, `false` for an empty
chain; spec §4.3 marks a terminated call's success "based on last good
result". -/
def lastResultSuccess (rs : List (String × AgentResult)) : Bool :=
  match rs.getLast? with
  | some p => p.2.success
  | Option.none => false

/-- Modelled from the spec: the `final_answer` convention of spec §4.3 step
3 — the designated human-readable field of one result: `data.formatted_answer`
when present, else `data.answer`, else `message`. -/
def extractAnswer (r : AgentResult) : String :=
  match dictFind r.data "formatted_answer" with
  | some v => pyStrOf v
  | Option.none =>
    match dictFind r.data "answer" with
    | some v => pyStrOf v
    | Option.none => r.message

/-- Modelled from the spec: `final_answer` is taken from the last successful
result of the chain (spec §4.3 step 3); empty when no agent succeeded. -/
def finalAnswer (rs : List (String × AgentResult)) : String :=
  match (rs.filter (fun p => p.2.success)).getLast? with
  | some p => extractAnswer p.2
  | Option.none => ""

/-- Builds the `ChainResult` from a final loop state and an optional
structural error: an `UnknownAgent` abort fails the whole call (spec §4.3
step 2a), otherwise success follows the last recorded result (so a chain
stopped by an agent failure is unsuccessful, and a `RoutingCycle` keeps the
success of the last good result, spec §4.3 step 2b). -/
def finalize (st : OrchState) (err : Option OrchError) : ChainResult :=
  { success := match err with
      | some OrchError.unknownAgent => false
      | _ => lastResultSuccess st.results,
    agent_results := st.results,
    final_answer := finalAnswer st.results,
    chain := st.chain,
    context := st.ctx,
    error := err }

namespace Orchestrator

/-- Modelled from the spec: one pass of the orchestrator chain loop of spec
§4.3 step 2, with explicit fuel (the termination measure is proved
separately): (a) fail with `UnknownAgent` when the current name is not
registered; (b) fail with `RoutingCycle` when it already appears in the
chain; (c) invoke the agent; (d) record the result and extend the chain;
(e) merge `result.data` into the context under `ctxKey` only on success;
(f) stop on failure without following `next_agent`; (g) otherwise follow
`next_agent`, a `Option.none` hand-off ending the chain. -/
def chatLoop (reg : Registry) (query : String) (files : Files) :
    Nat → OrchState → String → ChainResult
  | 0, st, _ => finalize st (some OrchError.fuelExhausted)
  | Nat.succ n, st, current =>
    match List.lookup current reg with
    | Option.none => finalize st (some OrchError.unknownAgent)
    | some agent =>
      if current ∈ st.chain then
        finalize st (some OrchError.routingCycle)
      else
        let r := agent query st.ctx files
        let st' : OrchState :=
          { chain := st.chain ++ [current],
            results := st.results ++ [(current, r)],
            ctx := if r.success then ctxInsert (ctxKey current) r.data st.ctx
                   else st.ctx }
        if r.success then
          match r.next_agent with
          | Option.none => finalize st' Option.none
          | some nxt => chatLoop reg query files n st' nxt
        else
          finalize st' Option.none

/-- Modelled from the spec: `Orchestrator.chat` (spec §4.3), driving the
hand-off chain from the configured entry agent.  The fuel `reg.length + 1`
is proved sufficient (the chain visits pairwise-distinct registered names). -/
def chat (reg : Registry) (entry : String) (query : String) (files : Files)
    (c : Ctx) : ChainResult :=
  chatLoop reg query files (reg.length + 1) { chain := [], results := [], ctx := c } entry

end Orchestrator

/-- The context-merge fold performed by the orchestrator over a run's newly
recorded results: each successful result's data is inserted under its
`ctxKey`; failed results contribute nothing (spec §4.3 step 2e). -/
def mergeNew (new : List (String × AgentResult)) (c : Ctx) : Ctx :=
  new.foldl (fun acc p => if p.2.success then ctxInsert (ctxKey p.1) p.2.data acc else acc) c

/-- The context-merge fold of the `/chat` endpoint (src/main.py lines
106–108): every entry of `agent_results` is merged, with no per-result
success check — the fold runs only when the overall call succeeded. -/
def mergeAllData (new : List (String × AgentResult)) (c : Ctx) : Ctx :=
  new.foldl (fun acc p => ctxInsert (ctxKey p.1) p.2.data acc) c

/-- The session-context update of the `/chat` endpoint (src/main.py lines
100–108): run the orchestrator on the session context (which the
orchestrator's step 2e updates in place, here threaded through
`ChainResult.context`), then, when the call succeeded and `agent_results`
is truthy (nonempty), merge every recorded result's data under its lowered
key.  Returns the orchestrator result and the session context after the
call. -/
def chatEndpointContext (reg : Registry) (entry : String) (message : String)
    (files : Files) (c : Ctx) : ChainResult × Ctx :=
  let results := Orchestrator.chat reg entry message files c
  let ctx1 := results.context
  let ctx2 :=
    if results.success && !results.agent_results.isEmpty then
      mergeAllData results.agent_results ctx1
    else ctx1
  (results, ctx2)

/-- A raised Python exception, carried outside an `Except.ok`: the string
describes the exception. -/
abbrev PyExn := String

/-- Whether a Python value is a dictionary (and so supports `.get`). -/
def isDictVal : PyVal → Bool
  | PyVal.dict _ => true
  | _ => false

/-- Whether a Python value is a list all of whose elements are
dictionaries. -/
def listAllDict : PyVal → Bool
  | PyVal.list items => items.all isDictVal
  | _ => false

namespace AnswerSynthesiserAgent

/-- Whether the `results` entry of a `codeinterpreter_data` dictionary, when
truthy, is a list of dictionaries — the shape the results loop of
`_build_prompt` traverses without raising. -/
def resultsShapeOk (d : List (String × PyVal)) : Bool :=
  match List.lookup "results" d with
  | Option.none => true
  | some rv => if pyTruthy rv then listAllDict rv else true

/-- Check whether the context's `codeinterpreter_data` entry, when present
and not `None`, has the shape `_build_prompt` can traverse without raising:
a dictionary whose `results` entry, when truthy, is a list of dictionaries.
Used to state the amended absorption property. -/
def wellShapedCtx (context : Ctx) : Bool :=
  match ctxFind context "codeinterpreter_data" with
  | Option.none => true
  | some PyVal.none => true
  | some (PyVal.dict d) => resultsShapeOk d
  | some _ => false

/-- The fixed instruction block appended after the analysis results
(answer_synthesiser.py lines 72–80). -/
def analysisTail : String :=
  "\nInstructions:\n1. Provide a clear, user-friendly answer\n2. Use markdown formatting\n3. Focus on insights, not technical details\n4. Be conversational and easy to understand\n\nProvide your answer:\n"

/-- Accumulates `f"{result['output']}\n"` for each element of
`ci_data["results"]` (answer_synthesiser.py lines 68–70); an element without
a `get` attribute (any non-dictionary) raises `AttributeError`. -/
def appendOutputs : List PyVal → String → Except PyExn String
  | [], acc => Except.ok acc
  | it :: rest, acc =>
    match it with
    | PyVal.dict m =>
      match List.lookup "output" m with
      | some ov =>
        if pyTruthy ov then appendOutputs rest (acc ++ pyStrOf ov ++ "\n")
        else appendOutputs rest acc
      | Option.none => appendOutputs rest acc
    | _ => Except.error "AttributeError: object has no attribute get"

/-- The prompt prefix built before the results loop (answer_synthesiser.py
lines 59–66): the analysis header, plus `f"{ci_data['analysis']}\n\n"` when
the `analysis` entry is truthy. -/
def analysisBase (query : String) (d : List (String × PyVal)) : String :=
  let base := "You are an AI assistant. Based on the analysis results, provide a clear answer.\n\nUser Query: " ++ query ++ "\n\nAnalysis Results:\n"
  match List.lookup "analysis" d with
  | some av => if pyTruthy av then base ++ pyStrOf av ++ "\n\n" else base
  | Option.none => base

/-- `AnswerSynthesiserAgent._build_prompt` (answer_synthesiser.py lines
54–94).  The traversal of `codeinterpreter_data` raises (returns
`Except.error`) exactly where the Python attribute accesses would: calling
`.get` on a non-dictionary value, and iterating a non-list truthy `results`
value (iterating a nonempty string or dictionary yields non-dictionary
elements whose `.get` raises; iterating a number raises `TypeError`). -/
def buildPrompt (query : String) (context : Ctx) : Except PyExn String :=
  let cd := ctxFind context "codeinterpreter_data"
  let hasCodeResults :=
    match cd with
    | Option.none => false
    | some PyVal.none => false
    | some _ => true
  if hasCodeResults then
    match cd.getD (PyVal.dict []) with
    | PyVal.dict d =>
      let base := analysisBase query d
      match List.lookup "results" d with
      | some rv =>
        if pyTruthy rv then
          match rv with
          | PyVal.list items =>
            match appendOutputs items base with
            | Except.ok acc => Except.ok (acc ++ analysisTail)
            | Except.error e => Except.error e
          | PyVal.str _ => Except.error "AttributeError: object has no attribute get"
          | PyVal.dict _ => Except.error "AttributeError: object has no attribute get"
          | _ => Except.error "TypeError: object is not iterable"
        else Except.ok (base ++ analysisTail)
      | Option.none => Except.ok (base ++ analysisTail)
    | _ => Except.error "AttributeError: object has no attribute get"
  else
    Except.ok ("You are a helpful AI assistant. Answer the user's question clearly.\n\nUser Query: " ++ query ++ "\n\nInstructions:\n1. Provide a clear, accurate answer\n2. Use markdown formatting\n3. Be conversational but professional\n\nProvide your answer:\n")

/-- The `try`/`except` body of `process` (answer_synthesiser.py lines
32–52) as a function of the backend outcome: a generated text yields the
success result, a raised backend exception is absorbed into the failure
result. -/
def resultOfGenerate : Except PyExn String → AgentResult
  | Except.ok t =>
    mkAgentResult true
      (PyVal.dict [("answer", PyVal.str t), ("formatted_answer", PyVal.str t)])
      "Answer synthesized successfully" "AnswerSynthesiser" Option.none Option.none
  | Except.error e =>
    mkAgentResult false (PyVal.dict [("error", PyVal.str e)])
      ("Error: " ++ e) "AnswerSynthesiser" Option.none Option.none

/-- `AnswerSynthesiserAgent.process` (answer_synthesiser.py lines 26–52),
with the generation backend (`self.model.generate_content` followed by
`.text`) abstracted as the function `generate`, whose `Except.error` models
any exception it raises.  Faithfully to the source, `_build_prompt` runs
BEFORE the `try` block, so an exception it raises escapes `process`
(an outer `Except.error`); the backend call runs inside the `try`, its
exception being converted to a failed `AgentResult` by `resultOfGenerate`. -/
def process (generate : String → Except PyExn String) (query : String)
    (context : Ctx) : Except PyExn AgentResult :=
  match buildPrompt query context with
  | Except.error e => Except.error e
  | Except.ok prompt => Except.ok (resultOfGenerate (generate prompt))

end AnswerSynthesiserAgent

namespace CalculatorAgent

/-- The failure result returned when the calculation cannot be parsed
(sample_custom_agent.py lines 149–154). -/
def failResult : AgentResult :=
  mkAgentResult false (PyVal.dict [("error", PyVal.str "Could not parse calculation")])
    "Could not perform calculation" "CalculatorAgent" Option.none Option.none

/-- The success result for a computed total (sample_custom_agent.py lines
138–145). -/
def successResult (total : Nat) : AgentResult :=
  mkAgentResult true
    (PyVal.dict [("result", PyVal.int (Int.ofNat total)), ("operation", PyVal.str "addition")])
    ("Calculated: " ++ toString total) "CalculatorAgent" (some "AnswerSynthesiser") Option.none

/-- The `isdigit`-filtered whitespace-split tokens of the query:
`[s for s in query.split() if s.isdigit()]` before `int` is applied. -/
def digitTokens (q : String) : List String :=
  (pySplit q).filter pyIsdigit

/-- `CalculatorAgent.process` (sample_custom_agent.py lines 126–154): when
the lowered query contains `add` or the query contains `+`, build
`numbers = [int(s) for s in query.split() if s.isdigit()]` — a `ValueError`
from `int` (some `isdigit` token not an ASCII-digit numeral, modelled by
`pyIntOfToken` returning `Option.none`) lands in the `except` and yields the
failure result — and return the sum when at least two numbers were parsed;
every other path returns the failure result. -/
def process (q : String) : AgentResult :=
  if strContainsSub (pyLowerStr q) "add" || strContainsSub q "+" then
    match (digitTokens q).mapM pyIntOfToken with
    | some numbers =>
      if 2 ≤ numbers.length then
        successResult (numbers.foldl (· + ·) 0)
      else failResult
    | Option.none => failResult
  else failResult

end CalculatorAgent

/-! ## Helper lemmas -/

/-- A value satisfying `isDictVal` is a dictionary. -/
lemma isDictVal_eq {v : PyVal} (h : isDictVal v = true) : ∃ m, v = PyVal.dict m := by
  cases v <;> simp [isDictVal] at h ⊢

/-- When every element of `items` is a dictionary, the output-accumulation
loop of `_build_prompt` raises nothing. -/
lemma appendOutputs_ok : ∀ (items : List PyVal) (acc : String),
    items.all isDictVal = true →
    ∃ acc2, AnswerSynthesiserAgent.appendOutputs items acc = Except.ok acc2 := by
  intro items
  induction items with
  | nil => exact fun acc _ => ⟨acc, rfl⟩
  | cons it rest ih =>
    intro acc hall
    rw [List.all_cons, Bool.and_eq_true] at hall
    obtain ⟨h1, h2⟩ := hall
    obtain ⟨m, rfl⟩ := isDictVal_eq h1
    cases hl : List.lookup "output" m with
    | none => simpa [AnswerSynthesiserAgent.appendOutputs, hl] using ih acc h2
    | some ov =>
      by_cases ht : pyTruthy ov = true
      · simpa [AnswerSynthesiserAgent.appendOutputs, hl, ht]
          using ih (acc ++ pyStrOf ov ++ "\n") h2
      · rw [Bool.not_eq_true] at ht
        simpa [AnswerSynthesiserAgent.appendOutputs, hl, ht] using ih acc h2

/-- On a well-shaped context, `_build_prompt` returns a prompt rather than
raising. -/
lemma buildPrompt_ok : ∀ (q : String) (context : Ctx),
    AnswerSynthesiserAgent.wellShapedCtx context = true →
    ∃ p, AnswerSynthesiserAgent.buildPrompt q context = Except.ok p := by
  intro q context hw
  unfold AnswerSynthesiserAgent.wellShapedCtx at hw
  unfold AnswerSynthesiserAgent.buildPrompt
  cases hcd : ctxFind context "codeinterpreter_data" with
  | none => simp [hcd]
  | some v =>
    rw [hcd] at hw
    cases v with
    | none => simp [hcd]
    | bool b => simp at hw
    | int n => simp at hw
    | str s => simp at hw
    | list l => simp at hw
    | dict d =>
      have hw2 : AnswerSynthesiserAgent.resultsShapeOk d = true := hw
      unfold AnswerSynthesiserAgent.resultsShapeOk at hw2
      cases hr : List.lookup "results" d with
      | none => simp [hcd, hr]
      | some rv =>
        rw [hr] at hw2
        have hw3 : (if pyTruthy rv = true then listAllDict rv else true) = true := hw2
        by_cases ht : pyTruthy rv = true
        · rw [if_pos ht] at hw3
          cases rv with
          | list items =>
            have hw4 : items.all isDictVal = true := hw3
            obtain ⟨acc2, ha⟩ :=
              appendOutputs_ok items (AnswerSynthesiserAgent.analysisBase q d) hw4
            simp [hcd, hr, ht, ha]
          | none => simp [pyTruthy] at ht
          | bool b => exact absurd hw3 (by simp [listAllDict])
          | int n => exact absurd hw3 (by simp [listAllDict])
          | str s => exact absurd hw3 (by simp [listAllDict])
          | dict d2 => exact absurd hw3 (by simp [listAllDict])
        · rw [Bool.not_eq_true] at ht
          simp [hcd, hr, ht]

/-! ## Claim C2 — agent faults absorbed at the agent boundary -/

/-- C2 counterexample: with a context whose `codeinterpreter_data` entry is
a plain string, `AnswerSynthesiserAgent.process` raises an uncaught
`AttributeError` (an outer `Except.error`): `_build_prompt` runs before the
`try` block, and `ci_data.get("analysis")` on a string raises.  The claim
states `process` never raises for ANY context shape, so this input refutes
it — even with a backend that succeeds. -/
theorem answerSynthesiser_raises_on_malformed_context :
    AnswerSynthesiserAgent.process (fun _ => Except.ok "fine") "q"
      [("codeinterpreter_data", PyVal.str "weird")]
    = Except.error "AttributeError: object has no attribute get" := rfl

/-- C2 (amended): provided the context's `codeinterpreter_data` entry, when
present and not `None`, is a dictionary whose truthy `results` entry is a
list of dictionaries, `process` never raises: it returns an `AgentResult`,
and every generation-backend failure is absorbed into
`AgentResult{success := false, data := {error}, message := "Error: ...",
next_agent := none}`. -/
theorem answerSynthesiser_absorbs_faults :
    ∀ (generate : String → Except PyExn String) (q : String) (context : Ctx),
    AnswerSynthesiserAgent.wellShapedCtx context = true →
    ∃ prompt, AnswerSynthesiserAgent.buildPrompt q context = Except.ok prompt
      ∧ (∀ t, generate prompt = Except.ok t →
          AnswerSynthesiserAgent.process generate q context =
            Except.ok (mkAgentResult true
              (PyVal.dict [("answer", PyVal.str t), ("formatted_answer", PyVal.str t)])
              "Answer synthesized successfully" "AnswerSynthesiser" Option.none Option.none))
      ∧ (∀ e, generate prompt = Except.error e →
          AnswerSynthesiserAgent.process generate q context =
            Except.ok (mkAgentResult false (PyVal.dict [("error", PyVal.str e)])
              ("Error: " ++ e) "AnswerSynthesiser" Option.none Option.none)) := by
  intro generate q context hw
  obtain ⟨prompt, hp⟩ := buildPrompt_ok q context hw
  have hbase : AnswerSynthesiserAgent.process generate q context =
      Except.ok (AnswerSynthesiserAgent.resultOfGenerate (generate prompt)) := by
    unfold AnswerSynthesiserAgent.process
    rw [hp]
  refine ⟨prompt, hp, ?_, ?_⟩
  · intro t hg
    rw [hbase, hg]
    rfl
  · intro e hg
    rw [hbase, hg]
    rfl

/-- A concrete well-shaped context exercising the analysis branch of
`_build_prompt`. -/
def exampleWellCtx : Ctx :=
  [("codeinterpreter_data", PyVal.dict
    [("analysis", PyVal.str "went well"),
     ("results", PyVal.list [PyVal.dict [("output", PyVal.str "42")]])])]

/-- Witness for C2 (amended) at a concrete well-shaped context and a
failing backend. -/
theorem answerSynthesiser_absorbs_faults_witness :
    AnswerSynthesiserAgent.wellShapedCtx exampleWellCtx = true
    ∧ ∃ prompt,
      AnswerSynthesiserAgent.buildPrompt "how" exampleWellCtx = Except.ok prompt
      ∧ (∀ t, (fun (_ : String) => (Except.error "boom" : Except PyExn String)) prompt = Except.ok t →
          AnswerSynthesiserAgent.process (fun _ => Except.error "boom") "how" exampleWellCtx =
            Except.ok (mkAgentResult true
              (PyVal.dict [("answer", PyVal.str t), ("formatted_answer", PyVal.str t)])
              "Answer synthesized successfully" "AnswerSynthesiser" Option.none Option.none))
      ∧ (∀ e, (fun (_ : String) => (Except.error "boom" : Except PyExn String)) prompt = Except.error e →
          AnswerSynthesiserAgent.process (fun _ => Except.error "boom") "how" exampleWellCtx =
            Except.ok (mkAgentResult false (PyVal.dict [("error", PyVal.str e)])
              ("Error: " ++ e) "AnswerSynthesiser" Option.none Option.none)) :=
  ⟨by decide,
   answerSynthesiser_absorbs_faults (fun _ => Except.error "boom") "how" exampleWellCtx (by decide)⟩

/-! ## Claim C9 — the calculator agent -/

/-- C9 counterexample: the query `"add 1 2 ²"` contains `"add"` and has the
two decimal-digit tokens `"1"` and `"2"`, so the claim predicts a success
result with sum 3; but `'²'` satisfies `str.isdigit`, so it enters the list
comprehension, where `int('²')` raises `ValueError`, and the `except`
clause returns the failure result instead. -/
theorem calculator_claim_counterexample :
    (CalculatorAgent.process "add 1 2 ²").success = false
    ∧ strContainsSub (pyLowerStr "add 1 2 ²") "add" = true
    ∧ 2 ≤ ((pySplit "add 1 2 ²").filter
        (fun t => !t.data.isEmpty && t.data.all (fun c => '0' ≤ c && c ≤ '9'))).length := by
  refine ⟨rfl, rfl, ?_⟩
  decide

/-- C9 (amended): for every Latin-1 query, `CalculatorAgent.process`
succeeds — with `data.result` the sum of the parsed numbers,
`data.operation = "addition"` and `next_agent = "AnswerSynthesiser"` — if
and only if the query contains `"add"` (case-insensitively) or `"+"` AND
the `isdigit` tokens of the query all parse as ASCII decimal numerals with
at least two of them; in every other case (including an `isdigit` token
such as `"²"` that makes `int()` raise) it returns the failure result
`data = {error: "Could not parse calculation"}` with `next_agent = none`. -/
theorem calculator_process_spec :
    ∀ q : String, q.data.all (fun c => c.toNat ≤ 0xFF) = true →
      ((strContainsSub (pyLowerStr q) "add" || strContainsSub q "+") = false →
        CalculatorAgent.process q = CalculatorAgent.failResult)
      ∧ ((strContainsSub (pyLowerStr q) "add" || strContainsSub q "+") = true →
          (CalculatorAgent.digitTokens q).mapM pyIntOfToken = Option.none →
          CalculatorAgent.process q = CalculatorAgent.failResult)
      ∧ (∀ numbers, (strContainsSub (pyLowerStr q) "add" || strContainsSub q "+") = true →
          (CalculatorAgent.digitTokens q).mapM pyIntOfToken = some numbers →
          numbers.length < 2 →
          CalculatorAgent.process q = CalculatorAgent.failResult)
      ∧ (∀ numbers, (strContainsSub (pyLowerStr q) "add" || strContainsSub q "+") = true →
          (CalculatorAgent.digitTokens q).mapM pyIntOfToken = some numbers →
          2 ≤ numbers.length →
          CalculatorAgent.process q = CalculatorAgent.successResult (numbers.foldl (· + ·) 0)) := by
  intro q _
  refine ⟨?_, ?_, ?_, ?_⟩
  · intro hc
    unfold CalculatorAgent.process
    rw [hc]
    simp
  · intro hc hm
    unfold CalculatorAgent.process
    rw [hc, hm]
    simp
  · intro numbers hc hm hlen
    unfold CalculatorAgent.process
    rw [hc, hm]
    simp [Nat.not_le.mpr hlen]
  · intro numbers hc hm hlen
    unfold CalculatorAgent.process
    rw [hc, hm]
    simp [hlen]

/-- Witness for C9 (amended) on the query `"add 3 and 4"`. -/
theorem calculator_process_spec_witness :
    CalculatorAgent.process "add 3 and 4" = CalculatorAgent.successResult 7 :=
  (calculator_process_spec "add 3 and 4" (by decide)).2.2.2 [3, 4]
    (by decide) (by decide) (by decide)

/-! ## Claim C10 — dataclass construction invariants -/

/-- C10: every `Message` and `AgentResult` built through the dataclass
constructor (`__init__` + `__post_init__`) has a `metadata` field that is a
mapping, never `None` — an omitted (`None`) argument becoming the empty
mapping — and a `Message` built without a timestamp carries the creation
time. -/
theorem post_init_defaults :
    (∀ role content md ts now,
        (mkMessage role content md ts now).metadata = some (md.getD [])
      ∧ (mkMessage role content md ts now).timestamp = some (ts.getD now))
    ∧ (∀ role content ts now,
        (mkMessage role content Option.none ts now).metadata = some [])
    ∧ (∀ role content md now,
        (mkMessage role content md Option.none now).timestamp = some now)
    ∧ (∀ s dt m an na md,
        (mkAgentResult s dt m an na md).metadata = some (md.getD []))
    ∧ (∀ s dt m an na,
        (mkAgentResult s dt m an na Option.none).metadata = some []) :=
  ⟨fun _ _ _ _ _ => ⟨rfl, rfl⟩, fun _ _ _ _ => rfl, fun _ _ _ _ => rfl,
   fun _ _ _ _ _ _ => rfl, fun _ _ _ _ _ => rfl⟩

/-! ## Orchestrator loop lemmas -/

/-- A successfully looked-up name is a registered name. -/
lemma lookup_mem_keys {reg : Registry} {a : String} {A : AgentFn}
    (h : List.lookup a reg = some A) : a ∈ reg.map Prod.fst := by
  obtain ⟨l₁, l₂, rfl, -⟩ := List.lookup_eq_some_iff.mp h
  simp

/-- Unfolding: the loop out of fuel. -/
lemma chatLoop_zero (reg : Registry) (q : String) (files : Files)
    (st : OrchState) (cur : String) :
    Orchestrator.chatLoop reg q files 0 st cur =
      finalize st (some OrchError.fuelExhausted) := rfl

/-- Unfolding: the current name is not registered (spec §4.3 step 2a). -/
lemma chatLoop_unknown {reg : Registry} (q : String) (files : Files)
    (n : Nat) (st : OrchState) {cur : String}
    (hlk : List.lookup cur reg = Option.none) :
    Orchestrator.chatLoop reg q files (n + 1) st cur =
      finalize st (some OrchError.unknownAgent) := by
  simp [Orchestrator.chatLoop, hlk]

/-- Unfolding: the current name already appears in the chain (spec §4.3
step 2b). -/
lemma chatLoop_cycle {reg : Registry} (q : String) (files : Files)
    (n : Nat) (st : OrchState) {cur : String} {agent : AgentFn}
    (hlk : List.lookup cur reg = some agent) (hmem : cur ∈ st.chain) :
    Orchestrator.chatLoop reg q files (n + 1) st cur =
      finalize st (some OrchError.routingCycle) := by
  simp [Orchestrator.chatLoop, hlk, hmem]

/-- Unfolding: the invoked agent fails — record the result, leave the
context alone, stop (spec §4.3 steps 2d–2f). -/
lemma chatLoop_fail {reg : Registry} {q : String} {files : Files}
    (n : Nat) {st : OrchState} {cur : String} {agent : AgentFn}
    (hlk : List.lookup cur reg = some agent) (hmem : cur ∉ st.chain)
    (hs : (agent q st.ctx files).success = false) :
    Orchestrator.chatLoop reg q files (n + 1) st cur =
      finalize { chain := st.chain ++ [cur],
                 results := st.results ++ [(cur, agent q st.ctx files)],
                 ctx := st.ctx } Option.none := by
  simp [Orchestrator.chatLoop, hlk, hmem, hs]

/-- Unfolding: the invoked agent succeeds with no hand-off — record, merge,
end the chain (spec §4.3 steps 2d, 2e, 2g with a null `next_agent`). -/
lemma chatLoop_last {reg : Registry} {q : String} {files : Files}
    (n : Nat) {st : OrchState} {cur : String} {agent : AgentFn}
    (hlk : List.lookup cur reg = some agent) (hmem : cur ∉ st.chain)
    (hs : (agent q st.ctx files).success = true)
    (hna : (agent q st.ctx files).next_agent = Option.none) :
    Orchestrator.chatLoop reg q files (n + 1) st cur =
      finalize { chain := st.chain ++ [cur],
                 results := st.results ++ [(cur, agent q st.ctx files)],
                 ctx := ctxInsert (ctxKey cur) (agent q st.ctx files).data st.ctx }
        Option.none := by
  simp [Orchestrator.chatLoop, hlk, hmem, hs, hna]

/-- Unfolding: the invoked agent succeeds and hands off — record, merge,
continue at `next_agent` (spec §4.3 steps 2d, 2e, 2g). -/
lemma chatLoop_step {reg : Registry} {q : String} {files : Files}
    (n : Nat) {st : OrchState} {cur nxt : String} {agent : AgentFn}
    (hlk : List.lookup cur reg = some agent) (hmem : cur ∉ st.chain)
    (hs : (agent q st.ctx files).success = true)
    (hna : (agent q st.ctx files).next_agent = some nxt) :
    Orchestrator.chatLoop reg q files (n + 1) st cur =
      Orchestrator.chatLoop reg q files n
        { chain := st.chain ++ [cur],
          results := st.results ++ [(cur, agent q st.ctx files)],
          ctx := ctxInsert (ctxKey cur) (agent q st.ctx files).data st.ctx } nxt := by
  simp [Orchestrator.chatLoop, hlk, hmem, hs, hna]

/-- All-but-one direction of `List.all` under `dropLast`. -/
lemma all_dropLast {α : Type} {p : α → Bool} {l : List α}
    (h : l.all p = true) : l.dropLast.all p = true := by
  rw [List.all_eq_true] at h ⊢
  intro x hx
  exact h x (List.dropLast_subset l hx)

/-- Decomposition of a loop run: the returned results extend the entry
state's results by a run-specific suffix `new`, the chain extends the entry
chain by the names of `new` in order, and the returned context is the entry
context with every successful element of `new` merged in order. -/
lemma chatLoop_decomp (reg : Registry) (q : String) (files : Files) :
    ∀ (fuel : Nat) (st : OrchState) (cur : String),
    ∃ new,
      (Orchestrator.chatLoop reg q files fuel st cur).agent_results = st.results ++ new
      ∧ (Orchestrator.chatLoop reg q files fuel st cur).chain = st.chain ++ new.map Prod.fst
      ∧ (Orchestrator.chatLoop reg q files fuel st cur).context = mergeNew new st.ctx := by
  intro fuel
  induction fuel with
  | zero =>
    intro st cur
    refine ⟨[], ?_, ?_, ?_⟩ <;> simp [chatLoop_zero, finalize, mergeNew]
  | succ n ih =>
    intro st cur
    cases hlk : List.lookup cur reg with
    | none =>
      refine ⟨[], ?_, ?_, ?_⟩ <;>
        simp [chatLoop_unknown q files n st hlk, finalize, mergeNew]
    | some agent =>
      by_cases hmem : cur ∈ st.chain
      · refine ⟨[], ?_, ?_, ?_⟩ <;>
          simp [chatLoop_cycle q files n st hlk hmem, finalize, mergeNew]
      · by_cases hs : (agent q st.ctx files).success = true
        · cases hna : (agent q st.ctx files).next_agent with
          | none =>
            refine ⟨[(cur, agent q st.ctx files)], ?_, ?_, ?_⟩ <;>
              simp [chatLoop_last n hlk hmem hs hna, finalize, mergeNew, hs]
          | some nxt =>
            obtain ⟨new, h1, h2, h3⟩ := ih
              { chain := st.chain ++ [cur],
                results := st.results ++ [(cur, agent q st.ctx files)],
                ctx := ctxInsert (ctxKey cur) (agent q st.ctx files).data st.ctx } nxt
            refine ⟨(cur, agent q st.ctx files) :: new, ?_, ?_, ?_⟩ <;>
              rw [chatLoop_step n hlk hmem hs hna]
            · rw [h1]; simp
            · rw [h2]; simp
            · rw [h3]; simp [mergeNew, hs]
        · rw [Bool.not_eq_true] at hs
          refine ⟨[(cur, agent q st.ctx files)], ?_, ?_, ?_⟩ <;>
            simp [chatLoop_fail n hlk hmem hs, finalize, mergeNew, hs]

/-- Invariant: the chain stays duplicate-free and visits only registered
names. -/
lemma chatLoop_chain_inv (reg : Registry) (q : String) (files : Files) :
    ∀ (fuel : Nat) (st : OrchState) (cur : String),
      st.chain.Nodup → (∀ x ∈ st.chain, x ∈ reg.map Prod.fst) →
      (Orchestrator.chatLoop reg q files fuel st cur).chain.Nodup
      ∧ ∀ x ∈ (Orchestrator.chatLoop reg q files fuel st cur).chain,
          x ∈ reg.map Prod.fst := by
  intro fuel
  induction fuel with
  | zero =>
    intro st cur h1 h2
    exact ⟨h1, h2⟩
  | succ n ih =>
    intro st cur h1 h2
    cases hlk : List.lookup cur reg with
    | none =>
      rw [chatLoop_unknown q files n st hlk]
      exact ⟨h1, h2⟩
    | some agent =>
      by_cases hmem : cur ∈ st.chain
      · rw [chatLoop_cycle q files n st hlk hmem]
        exact ⟨h1, h2⟩
      · have hnodup : (st.chain ++ [cur]).Nodup := by
          simp [List.nodup_append, h1, hmem]
        have hsub : ∀ x ∈ st.chain ++ [cur], x ∈ reg.map Prod.fst := by
          intro x hx
          rcases List.mem_append.mp hx with hx | hx
          · exact h2 x hx
          · rw [List.mem_singleton.mp hx]
            exact lookup_mem_keys hlk
        by_cases hs : (agent q st.ctx files).success = true
        · cases hna : (agent q st.ctx files).next_agent with
          | none =>
            rw [chatLoop_last n hlk hmem hs hna]
            exact ⟨hnodup, hsub⟩
          | some nxt =>
            rw [chatLoop_step n hlk hmem hs hna]
            exact ih _ nxt hnodup hsub
        · rw [Bool.not_eq_true] at hs
          rw [chatLoop_fail n hlk hmem hs]
          exact ⟨hnodup, hsub⟩

/-- The fuelled loop never runs out of fuel when the fuel exceeds the number
of registered names not yet visited. -/
lemma chatLoop_no_fuel (reg : Registry) (q : String) (files : Files) :
    ∀ (fuel : Nat) (st : OrchState) (cur : String),
      ((reg.map Prod.fst).toFinset \ st.chain.toFinset).card < fuel →
      (Orchestrator.chatLoop reg q files fuel st cur).error ≠
        some OrchError.fuelExhausted := by
  intro fuel
  induction fuel with
  | zero =>
    intro st cur h
    exact absurd h (Nat.not_lt_zero _)
  | succ n ih =>
    intro st cur hcard
    cases hlk : List.lookup cur reg with
    | none =>
      rw [chatLoop_unknown q files n st hlk]
      simp [finalize]
    | some agent =>
      by_cases hmem : cur ∈ st.chain
      · rw [chatLoop_cycle q files n st hlk hmem]
        simp [finalize]
      · by_cases hs : (agent q st.ctx files).success = true
        · cases hna : (agent q st.ctx files).next_agent with
          | none =>
            rw [chatLoop_last n hlk hmem hs hna]
            simp [finalize]
          | some nxt =>
            rw [chatLoop_step n hlk hmem hs hna]
            apply ih
            have hsd : ((reg.map Prod.fst).toFinset \ (st.chain ++ [cur]).toFinset) =
                ((reg.map Prod.fst).toFinset \ st.chain.toFinset).erase cur := by
              ext x
              simp only [Finset.mem_sdiff, Finset.mem_erase, List.mem_toFinset,
                List.mem_append, List.mem_singleton]
              tauto
            have hmemd : cur ∈ (reg.map Prod.fst).toFinset \ st.chain.toFinset := by
              simp only [Finset.mem_sdiff, List.mem_toFinset]
              exact ⟨lookup_mem_keys hlk, hmem⟩
            have hlt := Finset.card_erase_lt_of_mem hmemd
            simp only [OrchState.mk] at *
            rw [hsd]
            omega
        · rw [Bool.not_eq_true] at hs
          rw [chatLoop_fail n hlk hmem hs]
          simp [finalize]

/-- When a run's `ChainResult` is successful, every recorded result is
successful: the loop stops at the first failure and that failure makes the
call unsuccessful. -/
lemma chatLoop_success_all (reg : Registry) (q : String) (files : Files) :
    ∀ (fuel : Nat) (st : OrchState) (cur : String),
      st.results.all (fun p => p.2.success) = true →
      (Orchestrator.chatLoop reg q files fuel st cur).success = true →
      (Orchestrator.chatLoop reg q files fuel st cur).agent_results.all
        (fun p => p.2.success) = true := by
  intro fuel
  induction fuel with
  | zero =>
    intro st cur hall _
    exact hall
  | succ n ih =>
    intro st cur hall hsucc
    cases hlk : List.lookup cur reg with
    | none =>
      rw [chatLoop_unknown q files n st hlk]
      exact hall
    | some agent =>
      by_cases hmem : cur ∈ st.chain
      · rw [chatLoop_cycle q files n st hlk hmem]
        exact hall
      · by_cases hs : (agent q st.ctx files).success = true
        · cases hna : (agent q st.ctx files).next_agent with
          | none =>
            rw [chatLoop_last n hlk hmem hs hna]
            simp [finalize, List.all_append, hall, hs]
          | some nxt =>
            rw [chatLoop_step n hlk hmem hs hna] at hsucc ⊢
            refine ih _ nxt ?_ hsucc
            simp [List.all_append, hall, hs]
        · rw [Bool.not_eq_true] at hs
          rw [chatLoop_fail n hlk hmem hs] at hsucc
          simp [finalize, lastResultSuccess, List.getLast?_concat, hs] at hsucc
      
/-- Every recorded result except possibly the last is successful: the loop
never continues past a failed result. -/
lemma chatLoop_dropLast (reg : Registry) (q : String) (files : Files) :
    ∀ (fuel : Nat) (st : OrchState) (cur : String),
      st.results.all (fun p => p.2.success) = true →
      (Orchestrator.chatLoop reg q files fuel st cur).agent_results.dropLast.all
        (fun p => p.2.success) = true := by
  intro fuel
  induction fuel with
  | zero =>
    intro st cur hall
    exact all_dropLast hall
  | succ n ih =>
    intro st cur hall
    cases hlk : List.lookup cur reg with
    | none =>
      rw [chatLoop_unknown q files n st hlk]
      exact all_dropLast hall
    | some agent =>
      by_cases hmem : cur ∈ st.chain
      · rw [chatLoop_cycle q files n st hlk hmem]
        exact all_dropLast hall
      · by_cases hs : (agent q st.ctx files).success = true
        · cases hna : (agent q st.ctx files).next_agent with
          | none =>
            rw [chatLoop_last n hlk hmem hs hna]
            simp only [finalize]
            rw [List.dropLast_concat]
            exact hall
          | some nxt =>
            rw [chatLoop_step n hlk hmem hs hna]
            refine ih _ nxt ?_
            simp [List.all_append, hall, hs]
        · rw [Bool.not_eq_true] at hs
          rw [chatLoop_fail n hlk hmem hs]
          simp only [finalize]
          rw [List.dropLast_concat]
          exact hall

/-- The returned `final_answer` is computed by `finalAnswer` from the
returned results. -/
lemma chatLoop_final_answer (reg : Registry) (q : String) (files : Files) :
    ∀ (fuel : Nat) (st : OrchState) (cur : String),
      (Orchestrator.chatLoop reg q files fuel st cur).final_answer =
        finalAnswer (Orchestrator.chatLoop reg q files fuel st cur).agent_results := by
  intro fuel
  induction fuel with
  | zero =>
    intro st cur
    rfl
  | succ n ih =>
    intro st cur
    cases hlk : List.lookup cur reg with
    | none =>
      rw [chatLoop_unknown q files n st hlk]
      rfl
    | some agent =>
      by_cases hmem : cur ∈ st.chain
      · rw [chatLoop_cycle q files n st hlk hmem]
        rfl
      · by_cases hs : (agent q st.ctx files).success = true
        · cases hna : (agent q st.ctx files).next_agent with
          | none =>
            rw [chatLoop_last n hlk hmem hs hna]
            rfl
          | some nxt =>
            rw [chatLoop_step n hlk hmem hs hna]
            exact ih _ nxt
        · rw [Bool.not_eq_true] at hs
          rw [chatLoop_fail n hlk hmem hs]
          rfl

/-- A registry is well-named when every registered agent stamps its results
with its registered name, as every concrete agent of the repository does
(each passes `agent_name=self.name`, and the orchestrator registers agents
under their `name` attribute). -/
def WellNamed (reg : Registry) : Prop :=
  ∀ n A, List.lookup n reg = some A →
    ∀ (q : String) (c : Ctx) (files : Files), (A q c files).agent_name = n

/-- In a well-named registry, every recorded result carries the name it is
recorded under. -/
lemma chatLoop_wellNamed {reg : Registry} (q : String) (files : Files)
    (hw : WellNamed reg) :
    ∀ (fuel : Nat) (st : OrchState) (cur : String),
      (∀ p ∈ st.results, p.2.agent_name = p.1) →
      ∀ p ∈ (Orchestrator.chatLoop reg q files fuel st cur).agent_results,
        p.2.agent_name = p.1 := by
  intro fuel
  induction fuel with
  | zero =>
    intro st cur hnames
    exact hnames
  | succ n ih =>
    intro st cur hnames
    cases hlk : List.lookup cur reg with
    | none =>
      rw [chatLoop_unknown q files n st hlk]
      exact hnames
    | some agent =>
      by_cases hmem : cur ∈ st.chain
      · rw [chatLoop_cycle q files n st hlk hmem]
        exact hnames
      · have hext : ∀ p ∈ st.results ++ [(cur, agent q st.ctx files)],
            p.2.agent_name = p.1 := by
          intro p hp
          rcases List.mem_append.mp hp with hp | hp
          · exact hnames p hp
          · rw [List.mem_singleton.mp hp]
            exact hw cur agent hlk q st.ctx files
        by_cases hs : (agent q st.ctx files).success = true
        · cases hna : (agent q st.ctx files).next_agent with
          | none =>
            rw [chatLoop_last n hlk hmem hs hna]
            exact hext
          | some nxt =>
            rw [chatLoop_step n hlk hmem hs hna]
            exact ih _ nxt hext
        · rw [Bool.not_eq_true] at hs
          rw [chatLoop_fail n hlk hmem hs]
          exact hext

/-! ## Context merge lemmas -/

/-- Lookup after inserting the looked-up key. -/
lemma ctxFind_insert_self (k : String) (v : PyVal) (c : Ctx) :
    ctxFind (ctxInsert k v c) k = some v := by
  simp [ctxFind, ctxInsert]

/-- Lookup after inserting a different key. -/
lemma ctxFind_insert_ne {k k2 : String} (hne : k ≠ k2) (v : PyVal) (c : Ctx) :
    ctxFind (ctxInsert k2 v c) k = ctxFind c k := by
  have hb : (k == k2) = false := beq_eq_false_iff_ne.mpr hne
  simp [ctxFind, ctxInsert, List.lookup_cons, hb]

/-- Context keys are injective as far as lowered names are: equal keys give
equal lowered names. -/
lemma ctxKey_inj {a b : String} (h : ctxKey a = ctxKey b) :
    pyLowerStr a = pyLowerStr b := by
  have hd := congrArg String.data h
  rw [ctxKey, ctxKey, String.data_append, String.data_append] at hd
  exact String.ext (List.append_cancel_right hd)

/-- A result list whose context keys collide only between equal names. -/
def KeyInjOn (l : List (String × AgentResult)) : Prop :=
  ∀ p ∈ l, ∀ p2 ∈ l, ctxKey p.1 = ctxKey p2.1 → p.1 = p2.1

/-- `KeyInjOn` restricts along the tail. -/
lemma KeyInjOn.tail {p : String × AgentResult} {l : List (String × AgentResult)}
    (h : KeyInjOn (p :: l)) : KeyInjOn l :=
  fun p1 h1 p2 h2 hk =>
    h p1 (List.mem_cons_of_mem _ h1) p2 (List.mem_cons_of_mem _ h2) hk

/-- The success-gated merge leaves keys alone that no entry carries. -/
lemma mergeNew_find_of_not_key :
    ∀ (new : List (String × AgentResult)) (c : Ctx) (k : String),
      (∀ p ∈ new, ctxKey p.1 ≠ k) →
      ctxFind (mergeNew new c) k = ctxFind c k := by
  intro new
  induction new with
  | nil => intro c k _; rfl
  | cons p rest ih =>
    intro c k h
    obtain ⟨b, s⟩ := p
    have hb : ctxKey b ≠ k := h (b, s) (List.mem_cons_self _ _)
    have hrest : ∀ p2 ∈ rest, ctxKey p2.1 ≠ k :=
      fun p2 hp2 => h p2 (List.mem_cons_of_mem _ hp2)
    rw [show mergeNew ((b, s) :: rest) c =
        mergeNew rest (if s.success then ctxInsert (ctxKey b) s.data c else c) from rfl]
    rw [ih _ k hrest]
    by_cases hs : s.success = true
    · rw [if_pos hs, ctxFind_insert_ne (Ne.symm hb)]
    · rw [Bool.not_eq_true] at hs
      rw [hs]
      simp

/-- The unconditional endpoint merge leaves keys alone that no entry
carries. -/
lemma mergeAllData_find_of_not_key :
    ∀ (new : List (String × AgentResult)) (c : Ctx) (k : String),
      (∀ p ∈ new, ctxKey p.1 ≠ k) →
      ctxFind (mergeAllData new c) k = ctxFind c k := by
  intro new
  induction new with
  | nil => intro c k _; rfl
  | cons p rest ih =>
    intro c k h
    obtain ⟨b, s⟩ := p
    have hb : ctxKey b ≠ k := h (b, s) (List.mem_cons_self _ _)
    have hrest : ∀ p2 ∈ rest, ctxKey p2.1 ≠ k :=
      fun p2 hp2 => h p2 (List.mem_cons_of_mem _ hp2)
    rw [show mergeAllData ((b, s) :: rest) c =
        mergeAllData rest (ctxInsert (ctxKey b) s.data c) from rfl]
    rw [ih _ k hrest, ctxFind_insert_ne (Ne.symm hb)]

/-- No entry of the tail shares a key with a head entry of a nodup,
key-injective list. -/
lemma no_tail_key {a : String} {r : AgentResult}
    {rest : List (String × AgentResult)}
    (hnotin : a ∉ rest.map Prod.fst) (hinj : KeyInjOn ((a, r) :: rest)) :
    ∀ p2 ∈ rest, ctxKey p2.1 ≠ ctxKey a := by
  intro p2 hp2 hk
  have heq : p2.1 = a :=
    hinj p2 (List.mem_cons_of_mem _ hp2) (a, r) (List.mem_cons_self _ _) hk
  exact hnotin (heq ▸ List.mem_map_of_mem Prod.fst hp2)

/-- After the unconditional endpoint merge, every entry's key holds that
entry's data (keys pairwise distinct). -/
lemma mergeAllData_find_mem :
    ∀ (new : List (String × AgentResult)) (c : Ctx) (a : String) (r : AgentResult),
      (new.map Prod.fst).Nodup → KeyInjOn new → (a, r) ∈ new →
      ctxFind (mergeAllData new c) (ctxKey a) = some r.data := by
  intro new
  induction new with
  | nil =>
    intro c a r _ _ hmem
    simp at hmem
  | cons p rest ih =>
    intro c a r hnd hinj hmem
    obtain ⟨b, s⟩ := p
    rw [List.map_cons, List.nodup_cons] at hnd
    obtain ⟨hbnotin, hndrest⟩ := hnd
    rcases List.mem_cons.mp hmem with heq | hmem2
    · injection heq with h1 h2
      subst h1
      subst h2
      rw [show mergeAllData ((a, r) :: rest) c =
          mergeAllData rest (ctxInsert (ctxKey a) r.data c) from rfl]
      rw [mergeAllData_find_of_not_key rest _ _ (no_tail_key hbnotin hinj)]
      exact ctxFind_insert_self _ _ _
    · have hbne : ctxKey b ≠ ctxKey a := by
        intro hk
        have heqb : b = a := hinj (b, s) (List.mem_cons_self _ _) (a, r)
          (List.mem_cons_of_mem _ hmem2) hk
        have hma : a ∈ rest.map Prod.fst := List.mem_map_of_mem Prod.fst hmem2
        rw [heqb] at hbnotin
        exact hbnotin hma
      rw [show mergeAllData ((b, s) :: rest) c =
          mergeAllData rest (ctxInsert (ctxKey b) s.data c) from rfl]
      exact ih _ a r hndrest hinj.tail hmem2

/-- After the success-gated merge, every successful entry's key holds that
entry's data (keys pairwise distinct). -/
lemma mergeNew_find_succ :
    ∀ (new : List (String × AgentResult)) (c : Ctx) (a : String) (r : AgentResult),
      (new.map Prod.fst).Nodup → KeyInjOn new → (a, r) ∈ new → r.success = true →
      ctxFind (mergeNew new c) (ctxKey a) = some r.data := by
  intro new
  induction new with
  | nil =>
    intro c a r _ _ hmem _
    simp at hmem
  | cons p rest ih =>
    intro c a r hnd hinj hmem hs
    obtain ⟨b, s⟩ := p
    rw [List.map_cons, List.nodup_cons] at hnd
    obtain ⟨hbnotin, hndrest⟩ := hnd
    rcases List.mem_cons.mp hmem with heq | hmem2
    · injection heq with h1 h2
      subst h1
      subst h2
      rw [show mergeNew ((a, r) :: rest) c =
          mergeNew rest (if r.success then ctxInsert (ctxKey a) r.data c else c) from rfl]
      rw [mergeNew_find_of_not_key rest _ _ (no_tail_key hbnotin hinj), if_pos hs]
      exact ctxFind_insert_self _ _ _
    · rw [show mergeNew ((b, s) :: rest) c =
          mergeNew rest (if s.success then ctxInsert (ctxKey b) s.data c else c) from rfl]
      exact ih _ a r hndrest hinj.tail hmem2 hs

/-- After the success-gated merge, a failed entry's key is untouched (keys
pairwise distinct): a failed agent never contributes to the context. -/
lemma mergeNew_find_fail :
    ∀ (new : List (String × AgentResult)) (c : Ctx) (a : String) (r : AgentResult),
      (new.map Prod.fst).Nodup → KeyInjOn new → (a, r) ∈ new → r.success = false →
      ctxFind (mergeNew new c) (ctxKey a) = ctxFind c (ctxKey a) := by
  intro new
  induction new with
  | nil =>
    intro c a r _ _ hmem _
    simp at hmem
  | cons p rest ih =>
    intro c a r hnd hinj hmem hs
    obtain ⟨b, s⟩ := p
    rw [List.map_cons, List.nodup_cons] at hnd
    obtain ⟨hbnotin, hndrest⟩ := hnd
    rcases List.mem_cons.mp hmem with heq | hmem2
    · injection heq with h1 h2
      subst h1
      subst h2
      rw [show mergeNew ((a, r) :: rest) c =
          mergeNew rest (if r.success then ctxInsert (ctxKey a) r.data c else c) from rfl]
      rw [mergeNew_find_of_not_key rest _ _ (no_tail_key hbnotin hinj), hs]
      simp
    · have hbne : ctxKey b ≠ ctxKey a := by
        intro hk
        have heqb : b = a := hinj (b, s) (List.mem_cons_self _ _) (a, r)
          (List.mem_cons_of_mem _ hmem2) hk
        have hma : a ∈ rest.map Prod.fst := List.mem_map_of_mem Prod.fst hmem2
        rw [heqb] at hbnotin
        exact hbnotin hma
      rw [show mergeNew ((b, s) :: rest) c =
          mergeNew rest (if s.success then ctxInsert (ctxKey b) s.data c else c) from rfl]
      rw [ih _ a r hndrest hinj.tail hmem2 hs]
      by_cases hss : s.success = true
      · rw [if_pos hss, ctxFind_insert_ne (Ne.symm hbne)]
      · rw [Bool.not_eq_true] at hss
        rw [hss]
        simp

/-! ## Claim C3 — termination and cycle detection -/

/-- C3: the orchestrator chain loop terminates: the fuelled encoding never
exhausts its fuel (so the recursion always exits through a spec-mandated
exit), the chain never exceeds the number of registered agents (its names
are pairwise-distinct registered names), and whenever the current agent
name already appears in the chain the loop returns at once with
`RoutingCycle`, `finalize` taking success from the last good result. -/
theorem chat_terminates :
    (∀ (reg : Registry) (entry q : String) (files : Files) (c : Ctx),
        (Orchestrator.chat reg entry q files c).error ≠ some OrchError.fuelExhausted
        ∧ (Orchestrator.chat reg entry q files c).chain.length ≤
            (reg.map Prod.fst).dedup.length)
    ∧ (∀ (reg : Registry) (q : String) (files : Files) (fuel : Nat)
          (st : OrchState) (cur : String) (agent : AgentFn),
        List.lookup cur reg = some agent → cur ∈ st.chain →
        Orchestrator.chatLoop reg q files (fuel + 1) st cur =
          finalize st (some OrchError.routingCycle)) := by
  constructor
  · intro reg entry q files c
    constructor
    · unfold Orchestrator.chat
      apply chatLoop_no_fuel
      calc ((reg.map Prod.fst).toFinset \
              (({ chain := [], results := [], ctx := c } : OrchState)).chain.toFinset).card
          = (reg.map Prod.fst).toFinset.card := by simp
        _ ≤ (reg.map Prod.fst).length := List.toFinset_card_le _
        _ = reg.length := List.length_map _ _
        _ < reg.length + 1 := Nat.lt_succ_self _
    · obtain ⟨hnd, hsub⟩ := chatLoop_chain_inv reg q files (reg.length + 1)
        { chain := [], results := [], ctx := c } entry (by simp) (by simp)
      unfold Orchestrator.chat
      have hsubf : (Orchestrator.chatLoop reg q files (reg.length + 1)
          { chain := [], results := [], ctx := c } entry).chain.toFinset ⊆
          (reg.map Prod.fst).toFinset := by
        intro x hx
        rw [List.mem_toFinset] at hx ⊢
        exact hsub x hx
      calc (Orchestrator.chatLoop reg q files (reg.length + 1)
              { chain := [], results := [], ctx := c } entry).chain.length
          = (Orchestrator.chatLoop reg q files (reg.length + 1)
              { chain := [], results := [], ctx := c } entry).chain.toFinset.card :=
            (List.toFinset_card_of_nodup hnd).symm
        _ ≤ (reg.map Prod.fst).toFinset.card := Finset.card_le_card hsubf
        _ = (reg.map Prod.fst).dedup.length := List.card_toFinset _
  · intro reg q files fuel st cur agent hlk hmem
    exact chatLoop_cycle q files fuel st hlk hmem

/-- A two-agent registry whose hand-offs form the cycle A → B → A
(spec §8 Example 3). -/
def agentA : AgentFn := fun _ _ _ =>
  mkAgentResult true (PyVal.dict [("answer", PyVal.str "a")]) "ok" "A"
    (some "B") Option.none

/-- Second agent of the cyclic registry, handing back to A. -/
def agentB : AgentFn := fun _ _ _ =>
  mkAgentResult true (PyVal.dict []) "ok" "B" (some "A") Option.none

/-- The cyclic registry A → B → A. -/
def cycleRegistry : Registry := [("A", agentA), ("B", agentB)]

/-- Witness for C3 on the cyclic registry. -/
theorem chat_terminates_witness :
    (Orchestrator.chat cycleRegistry "A" "q" [] []).error ≠
        some OrchError.fuelExhausted
    ∧ (Orchestrator.chat cycleRegistry "A" "q" [] []).chain.length ≤
        (cycleRegistry.map Prod.fst).dedup.length
    ∧ Orchestrator.chatLoop cycleRegistry "q" [] 1
        { chain := ["A", "B"], results := [], ctx := [] } "A" =
      finalize { chain := ["A", "B"], results := [], ctx := [] }
        (some OrchError.routingCycle) :=
  ⟨(chat_terminates.1 cycleRegistry "A" "q" [] []).1,
   (chat_terminates.1 cycleRegistry "A" "q" [] []).2,
   chat_terminates.2 cycleRegistry "q" [] 0
     { chain := ["A", "B"], results := [], ctx := [] } "A" agentA rfl (by decide)⟩

/-! ## Claim C4 — a failure stops the chain -/

/-- C4: a failed result ends the chain.  First part: when the entry agent
fails immediately, the whole call returns `chain = [entry]`, the result
recorded, the context UNCHANGED, `success = false` and no structural error,
regardless of the failed result's `next_agent`.  Second part: in every
chain, every recorded result except possibly the last is successful — the
loop never invokes an agent after a failure. -/
theorem chat_stops_on_failure :
    (∀ (reg : Registry) (entry q : String) (files : Files) (c : Ctx) (A : AgentFn),
        List.lookup entry reg = some A → (A q c files).success = false →
        Orchestrator.chat reg entry q files c =
          { success := false,
            agent_results := [(entry, A q c files)],
            final_answer := "",
            chain := [entry],
            context := c,
            error := Option.none })
    ∧ (∀ (reg : Registry) (entry q : String) (files : Files) (c : Ctx),
        (Orchestrator.chat reg entry q files c).agent_results.dropLast.all
          (fun p => p.2.success) = true) := by
  constructor
  · intro reg entry q files c A hlk hfail
    unfold Orchestrator.chat
    obtain ⟨k, hk⟩ : ∃ k, reg.length = k + 1 := by
      cases reg with
      | nil => simp at hlk
      | cons p rest => exact ⟨rest.length, rfl⟩
    rw [hk]
    rw [chatLoop_fail (k + 1) hlk (by simp) hfail]
    simp [finalize, lastResultSuccess, finalAnswer, hfail]
  · intro reg entry q files c
    unfold Orchestrator.chat
    exact chatLoop_dropLast reg q files _ _ entry rfl

/-- An entry agent that fails immediately (spec §8 Example 2), with a
`next_agent` it would like to hand to — which must be ignored. -/
def failingAgent : AgentFn := fun _ _ _ =>
  mkAgentResult false (PyVal.dict [("error", PyVal.str "bad input")])
    "bad input" "Entry" (some "AnswerSynthesiser") Option.none

/-- A registry with just the failing entry agent. -/
def failRegistry : Registry := [("Entry", failingAgent)]

/-- Witness for C4 at the immediately failing entry agent. -/
theorem chat_stops_on_failure_witness :
    Orchestrator.chat failRegistry "Entry" "m" [] [] =
      { success := false,
        agent_results := [("Entry", failingAgent "m" [] [])],
        final_answer := "",
        chain := ["Entry"],
        context := [],
        error := Option.none }
    ∧ (Orchestrator.chat failRegistry "Entry" "m" [] []).agent_results.dropLast.all
        (fun p => p.2.success) = true :=
  ⟨chat_stops_on_failure.1 failRegistry "Entry" "m" [] [] failingAgent rfl rfl,
   chat_stops_on_failure.2 failRegistry "Entry" "m" [] []⟩

/-! ## Claim C5 — chain mirrors agent_results -/

/-- C5: the chain lists exactly the recorded results' names in visitation
order (so the lengths agree), and — for a well-named registry, as all the
repository's concrete agents are — the i-th recorded result's `agent_name`
is the i-th chain entry (the recorded pairs satisfy
`p.2.agent_name = p.1` and `chain = agent_results.map Prod.fst`). -/
theorem chain_matches_results :
    ∀ (reg : Registry) (entry q : String) (files : Files) (c : Ctx),
      (Orchestrator.chat reg entry q files c).chain =
        (Orchestrator.chat reg entry q files c).agent_results.map Prod.fst
      ∧ (Orchestrator.chat reg entry q files c).chain.length =
          (Orchestrator.chat reg entry q files c).agent_results.length
      ∧ (WellNamed reg →
          ∀ p ∈ (Orchestrator.chat reg entry q files c).agent_results,
            p.2.agent_name = p.1) := by
  intro reg entry q files c
  obtain ⟨new, h1, h2, h3⟩ := chatLoop_decomp reg q files (reg.length + 1)
    { chain := [], results := [], ctx := c } entry
  have hchain : (Orchestrator.chat reg entry q files c).chain = new.map Prod.fst := by
    unfold Orchestrator.chat
    rw [h2]
    simp
  have hres : (Orchestrator.chat reg entry q files c).agent_results = new := by
    unfold Orchestrator.chat
    rw [h1]
    simp
  refine ⟨?_, ?_, ?_⟩
  · rw [hchain, hres]
  · rw [hchain, hres, List.length_map]
  · intro hw
    unfold Orchestrator.chat
    exact chatLoop_wellNamed q files hw _ _ entry (by simp)

/-- A single well-named agent used to witness C5. -/
def soloAgent : AgentFn := fun _ _ _ =>
  mkAgentResult true (PyVal.dict [("answer", PyVal.str "done")]) "ok" "Solo"
    Option.none Option.none

/-- The one-agent registry for the C5 witness. -/
def soloRegistry : Registry := [("Solo", soloAgent)]

/-- The solo registry stamps results with registered names. -/
lemma soloRegistry_wellNamed : WellNamed soloRegistry := by
  intro n A h q c files
  by_cases hn : n = "Solo"
  · subst hn
    rw [show List.lookup "Solo" soloRegistry = some soloAgent from rfl] at h
    cases h
    rfl
  · have hb : (n == "Solo") = false := beq_eq_false_iff_ne.mpr hn
    simp only [soloRegistry, List.lookup_cons, hb] at h
    simp at h

/-- Witness for C5 at the solo registry. -/
theorem chain_matches_results_witness :
    (Orchestrator.chat soloRegistry "Solo" "q" [] []).chain =
      (Orchestrator.chat soloRegistry "Solo" "q" [] []).agent_results.map Prod.fst
    ∧ (Orchestrator.chat soloRegistry "Solo" "q" [] []).chain.length =
        (Orchestrator.chat soloRegistry "Solo" "q" [] []).agent_results.length
    ∧ ∀ p ∈ (Orchestrator.chat soloRegistry "Solo" "q" [] []).agent_results,
        p.2.agent_name = p.1 :=
  ⟨(chain_matches_results soloRegistry "Solo" "q" [] []).1,
   (chain_matches_results soloRegistry "Solo" "q" [] []).2.1,
   (chain_matches_results soloRegistry "Solo" "q" [] []).2.2 soloRegistry_wellNamed⟩

/-! ## Claim C6 — unknown agents abort the call -/

/-- C6: an unregistered current agent aborts the call with `UnknownAgent`.
First part: an unregistered entry agent gives an empty chain, no results, an
unchanged context, `success = false` and the `UnknownAgent` error.  Second
part: when a registered agent succeeds handing off to an unregistered name,
the call reports `UnknownAgent` while the requesting agent's result is still
recorded (and the chain holds exactly the requester). -/
theorem unknown_agent_aborts :
    (∀ (reg : Registry) (entry q : String) (files : Files) (c : Ctx),
        List.lookup entry reg = Option.none →
        Orchestrator.chat reg entry q files c =
          { success := false, agent_results := [], final_answer := "",
            chain := [], context := c, error := some OrchError.unknownAgent })
    ∧ (∀ (reg : Registry) (a q : String) (files : Files) (c : Ctx)
          (A : AgentFn) (g : String),
        List.lookup a reg = some A → (A q c files).success = true →
        (A q c files).next_agent = some g → List.lookup g reg = Option.none →
        (Orchestrator.chat reg a q files c).error = some OrchError.unknownAgent
        ∧ (Orchestrator.chat reg a q files c).agent_results = [(a, A q c files)]
        ∧ (Orchestrator.chat reg a q files c).chain = [a]) := by
  constructor
  · intro reg entry q files c hlk
    unfold Orchestrator.chat
    rw [chatLoop_unknown q files reg.length _ hlk]
    simp [finalize, lastResultSuccess, finalAnswer]
  · intro reg a q files c A g hlk hs hna hg
    unfold Orchestrator.chat
    obtain ⟨k, hk⟩ : ∃ k, reg.length = k + 1 := by
      cases reg with
      | nil => simp at hlk
      | cons p rest => exact ⟨rest.length, rfl⟩
    rw [hk]
    rw [chatLoop_step (k + 1) hlk (by simp) hs hna]
    rw [chatLoop_unknown q files k _ hg]
    exact ⟨rfl, by simp [finalize], by simp [finalize]⟩

/-- An agent that succeeds and hands off to the unregistered name
`"Ghost"` (spec §8 Example 4). -/
def ghostCaller : AgentFn := fun _ _ _ =>
  mkAgentResult true (PyVal.dict []) "ok" "Caller" (some "Ghost") Option.none

/-- Registry with only the ghost-calling agent. -/
def ghostRegistry : Registry := [("Caller", ghostCaller)]

/-- Witness for C6: an unknown entry name, and an unknown hand-off after a
successful agent whose result stays recorded. -/
theorem unknown_agent_aborts_witness :
    Orchestrator.chat ghostRegistry "Missing" "q" [] [] =
      { success := false, agent_results := [], final_answer := "",
        chain := [], context := [], error := some OrchError.unknownAgent }
    ∧ ((Orchestrator.chat ghostRegistry "Caller" "q" [] []).error =
          some OrchError.unknownAgent
       ∧ (Orchestrator.chat ghostRegistry "Caller" "q" [] []).agent_results =
          [("Caller", ghostCaller "q" [] [])]
       ∧ (Orchestrator.chat ghostRegistry "Caller" "q" [] []).chain = ["Caller"]) :=
  ⟨unknown_agent_aborts.1 ghostRegistry "Missing" "q" [] [] rfl,
   unknown_agent_aborts.2 ghostRegistry "Caller" "q" [] [] ghostCaller "Ghost"
     rfl rfl rfl rfl⟩

/-! ## Claim C7 — the final answer convention -/

/-- C7: when the chain has at least one successful result, `final_answer`
is taken from the LAST successful result: its `data.formatted_answer` when
present, else its `data.answer` when present, else its `message`. -/
theorem final_answer_spec :
    ∀ (reg : Registry) (entry q : String) (files : Files) (c : Ctx)
      (p : String × AgentResult),
      ((Orchestrator.chat reg entry q files c).agent_results.filter
        (fun x => x.2.success)).getLast? = some p →
      (Orchestrator.chat reg entry q files c).final_answer =
        (match dictFind p.2.data "formatted_answer" with
         | some v => pyStrOf v
         | Option.none =>
           match dictFind p.2.data "answer" with
           | some v => pyStrOf v
           | Option.none => p.2.message) := by
  intro reg entry q files c p hlast
  unfold Orchestrator.chat at hlast ⊢
  rw [chatLoop_final_answer]
  unfold finalAnswer
  rw [hlast]
  rfl

/-- The Example-1 code-analysis agent: succeeds with an analysis payload and
hands off to the synthesiser. -/
def ciAgent : AgentFn := fun _ _ _ =>
  mkAgentResult true
    (PyVal.dict [("analysis", PyVal.str "done"), ("results", PyVal.list [])])
    "analysed" "CodeInterpreter" (some "AnswerSynthesiser") Option.none

/-- The Example-1 synthesiser stub: succeeds with `data.answer` set to
"Final text" and ends the chain. -/
def synthAgent : AgentFn := fun _ _ _ =>
  mkAgentResult true (PyVal.dict [("answer", PyVal.str "Final text")]) "ok"
    "AnswerSynthesiser" Option.none Option.none

/-- The Example-1 registry. -/
def exampleRegistry : Registry :=
  [("CodeInterpreter", ciAgent), ("AnswerSynthesiser", synthAgent)]

/-- Witness for C7: the spec §8 Example-1 chain yields
`final_answer = "Final text"` and visits both agents in order. -/
theorem final_answer_spec_witness :
    (Orchestrator.chat exampleRegistry "CodeInterpreter" "q" [] []).final_answer =
      "Final text"
    ∧ (Orchestrator.chat exampleRegistry "CodeInterpreter" "q" [] []).chain =
      ["CodeInterpreter", "AnswerSynthesiser"] :=
  ⟨(final_answer_spec exampleRegistry "CodeInterpreter" "q" [] []
      ("AnswerSynthesiser", synthAgent "q" [] []) rfl).trans rfl,
   rfl⟩

/-! ## Claim C8 — determinism of the orchestration -/

/-- C8: against the deterministic stub backends of the model (agents are
pure functions), two `chat` calls with identical message, context and files
produce identical chains and identically ordered `agent_results`. -/
theorem chat_deterministic :
    ∀ (reg : Registry) (entry q : String) (files : Files) (c1 c2 : Ctx),
      c1 = c2 →
      (Orchestrator.chat reg entry q files c1).chain =
        (Orchestrator.chat reg entry q files c2).chain
      ∧ (Orchestrator.chat reg entry q files c1).agent_results =
          (Orchestrator.chat reg entry q files c2).agent_results := by
  intro reg entry q files c1 c2 h
  subst h
  exact ⟨rfl, rfl⟩

/-- Witness for C8 at the Example-1 registry. -/
theorem chat_deterministic_witness :
    (Orchestrator.chat exampleRegistry "CodeInterpreter" "q" [] []).chain =
      (Orchestrator.chat exampleRegistry "CodeInterpreter" "q" [] []).chain
    ∧ (Orchestrator.chat exampleRegistry "CodeInterpreter" "q" [] []).agent_results =
        (Orchestrator.chat exampleRegistry "CodeInterpreter" "q" [] []).agent_results :=
  chat_deterministic exampleRegistry "CodeInterpreter" "q" [] [] [] rfl

/-! ## Claim C1 — context reflects exactly the successful payloads -/

/-- The endpoint returns the orchestrator's `ChainResult` unchanged. -/
lemma chatEndpointContext_fst (reg : Registry) (entry q : String)
    (files : Files) (c : Ctx) :
    (chatEndpointContext reg entry q files c).1 =
      Orchestrator.chat reg entry q files c := rfl

/-- The endpoint's session context after the call: the orchestrator-updated
context, with the unconditional endpoint merge on top when the call
succeeded with a truthy `agent_results`. -/
lemma chatEndpointContext_snd (reg : Registry) (entry q : String)
    (files : Files) (c : Ctx) :
    (chatEndpointContext reg entry q files c).2 =
      (if (Orchestrator.chat reg entry q files c).success &&
          !(Orchestrator.chat reg entry q files c).agent_results.isEmpty then
        mergeAllData (Orchestrator.chat reg entry q files c).agent_results
          (Orchestrator.chat reg entry q files c).context
      else (Orchestrator.chat reg entry q files c).context) := rfl

/-- C1: for a registry whose registered names have pairwise-distinct
lowercasings (so the `<name lowercased>_data` keys cannot collide), after a
`/chat` call the session context holds an invoked agent's data payload
under its key exactly when that agent's result succeeded: a successful
result's key maps to its data, a failed result's key is exactly as before
the call — a failed agent never contributes a key, though its result stays
in `agent_results` — and, for a key absent before the call, presence of the
payload is equivalent to the agent's success. -/
theorem context_merge_iff :
    ∀ (reg : Registry) (entry q : String) (files : Files) (c0 : Ctx),
      (((reg.map Prod.fst).dedup.map pyLowerStr).Nodup) →
      ∀ p ∈ (chatEndpointContext reg entry q files c0).1.agent_results,
        (p.2.success = true →
          ctxFind (chatEndpointContext reg entry q files c0).2 (ctxKey p.1) =
            some p.2.data)
        ∧ (p.2.success = false →
          ctxFind (chatEndpointContext reg entry q files c0).2 (ctxKey p.1) =
            ctxFind c0 (ctxKey p.1))
        ∧ (ctxFind c0 (ctxKey p.1) = Option.none →
          (ctxFind (chatEndpointContext reg entry q files c0).2 (ctxKey p.1) =
              some p.2.data ↔ p.2.success = true)) := by
  intro reg entry q files c0 hlnd p hp
  obtain ⟨new, h1, h2, h3⟩ := chatLoop_decomp reg q files (reg.length + 1)
    { chain := [], results := [], ctx := c0 } entry
  have hres : (Orchestrator.chat reg entry q files c0).agent_results = new := by
    unfold Orchestrator.chat
    rw [h1]
    simp
  have hctx : (Orchestrator.chat reg entry q files c0).context = mergeNew new c0 := by
    unfold Orchestrator.chat
    rw [h3]
  obtain ⟨hnd0, hsub0⟩ := chatLoop_chain_inv reg q files (reg.length + 1)
    { chain := [], results := [], ctx := c0 } entry (by simp) (by simp)
  have hchain : (Orchestrator.chat reg entry q files c0).chain = new.map Prod.fst := by
    unfold Orchestrator.chat
    rw [h2]
    simp
  have hnd : (new.map Prod.fst).Nodup := by
    rw [show (Orchestrator.chatLoop reg q files (reg.length + 1)
        { chain := [], results := [], ctx := c0 } entry).chain =
        (Orchestrator.chat reg entry q files c0).chain from rfl, hchain] at hnd0
    exact hnd0
  have hsub : ∀ x ∈ new.map Prod.fst, x ∈ reg.map Prod.fst := by
    intro x hx
    apply hsub0
    rw [show (Orchestrator.chatLoop reg q files (reg.length + 1)
        { chain := [], results := [], ctx := c0 } entry).chain =
        (Orchestrator.chat reg entry q files c0).chain from rfl, hchain]
    exact hx
  have hinj : KeyInjOn new := by
    intro p1 hp1 p2 hp2 hk
    have h1m : p1.1 ∈ (reg.map Prod.fst).dedup :=
      List.mem_dedup.mpr (hsub _ (List.mem_map_of_mem Prod.fst hp1))
    have h2m : p2.1 ∈ (reg.map Prod.fst).dedup :=
      List.mem_dedup.mpr (hsub _ (List.mem_map_of_mem Prod.fst hp2))
    exact List.inj_on_of_nodup_map hlnd h1m h2m (ctxKey_inj hk)
  have hp' : p ∈ new := by
    rw [chatEndpointContext_fst, hres] at hp
    exact hp
  have hpmem : (p.1, p.2) ∈ new := by
    rw [Prod.mk.eta]
    exact hp'
  by_cases hcond : ((Orchestrator.chat reg entry q files c0).success &&
      !(Orchestrator.chat reg entry q files c0).agent_results.isEmpty) = true
  · have hfinal : (chatEndpointContext reg entry q files c0).2 =
        mergeAllData new (mergeNew new c0) := by
      rw [chatEndpointContext_snd, if_pos hcond, hres, hctx]
    have hsucc_top : (Orchestrator.chat reg entry q files c0).success = true :=
      (Bool.and_eq_true _ _ |>.mp hcond).1
    have hall0 := chatLoop_success_all reg q files (reg.length + 1)
      { chain := [], results := [], ctx := c0 } entry rfl hsucc_top
    rw [h1] at hall0
    simp only [List.nil_append] at hall0
    have hpsucc : p.2.success = true := by
      rw [List.all_eq_true] at hall0
      exact hall0 p hp'
    refine ⟨?_, ?_, ?_⟩
    · intro _
      rw [hfinal]
      exact mergeAllData_find_mem new _ p.1 p.2 hnd hinj hpmem
    · intro hfail
      rw [hpsucc] at hfail
      cases hfail
    · intro _
      constructor
      · intro _
        exact hpsucc
      · intro _
        rw [hfinal]
        exact mergeAllData_find_mem new _ p.1 p.2 hnd hinj hpmem
  · have hfinal : (chatEndpointContext reg entry q files c0).2 = mergeNew new c0 := by
      rw [chatEndpointContext_snd, if_neg hcond, hctx]
    refine ⟨?_, ?_, ?_⟩
    · intro hsucc
      rw [hfinal]
      exact mergeNew_find_succ new c0 p.1 p.2 hnd hinj hpmem hsucc
    · intro hfail
      rw [hfinal]
      exact mergeNew_find_fail new c0 p.1 p.2 hnd hinj hpmem hfail
    · intro h0
      constructor
      · intro hfind
        by_contra hns
        rw [Bool.not_eq_true] at hns
        rw [hfinal, mergeNew_find_fail new c0 p.1 p.2 hnd hinj hpmem hns, h0] at hfind
        cases hfind
      · intro hsucc
        rw [hfinal]
        exact mergeNew_find_succ new c0 p.1 p.2 hnd hinj hpmem hsucc

/-- A successful agent handing off to a failing one, to exercise both sides
of the context-merge property. -/
def okAgent : AgentFn := fun _ _ _ =>
  mkAgentResult true (PyVal.dict [("x", PyVal.int 1)]) "ok" "Okay"
    (some "Faily") Option.none

/-- The failing second agent: its error payload must not reach the
context. -/
def failyAgent : AgentFn := fun _ _ _ =>
  mkAgentResult false (PyVal.dict [("error", PyVal.str "nope")]) "nope"
    "Faily" Option.none Option.none

/-- Registry pairing the successful and the failing agent. -/
def mixedRegistry : Registry := [("Okay", okAgent), ("Faily", failyAgent)]

/-- Witness for C1: in the success-then-failure chain, the successful
agent's payload is in the session context under `okay_data` and the failed
agent's key is untouched. -/
theorem context_merge_iff_witness :
    ((mixedRegistry.map Prod.fst).dedup.map pyLowerStr).Nodup
    ∧ ctxFind (chatEndpointContext mixedRegistry "Okay" "q" [] []).2
        (ctxKey "Okay") = some (PyVal.dict [("x", PyVal.int 1)])
    ∧ ctxFind (chatEndpointContext mixedRegistry "Okay" "q" [] []).2
        (ctxKey "Faily") = ctxFind [] (ctxKey "Faily") :=
  ⟨by decide,
   (context_merge_iff mixedRegistry "Okay" "q" [] [] (by decide)
      ("Okay", okAgent "q" [] []) (List.mem_cons_self _ _)).1 rfl,
   (context_merge_iff mixedRegistry "Okay" "q" [] [] (by decide)
      ("Faily", failyAgent "q" [] [])
      (List.mem_cons_of_mem _ (List.mem_cons_self _ _))).2.1 rfl⟩
